import Mathlib

/-!
Shallow embedding of the raw-logging core of `rockset/s2geometry`
(`src/s2/third_party/xbsl/base/log_severity.h` and
`src/s2/third_party/xbsl/base/internal/raw_logging.h`), with theorems
checking the natural-language specification against it.

C++ `enum class LogSeverity : int` has underlying type `int`, so a severity
value may be any integer; we embed severities as `Int`, with the four
canonical levels as the named constants `LogSeverity.kInfo` etc.

The severity model (`NormalizeLogSeverity`, `LogSeverityName`), the
`Basename` resolver and the `XBSL_RAW_LOG` / `XBSL_RAW_CHECK` macro dispatch
are translated directly from the headers.  The implementation files
`raw_logging.cc` and `log_severity.cc` are not part of the source tree here
(only their declarations are), so the `RawLog` dispatch, the
hook-registration functions and the `kLogDebugFatal` constant are modelled
from the spec, as marked on each such definition.
-/

namespace xbsl

/-- `LogSeverity::kInfo = 0` (log_severity.h:33). -/
def LogSeverity.kInfo : Int := 0

/-- `LogSeverity::kWarning = 1` (log_severity.h:34). -/
def LogSeverity.kWarning : Int := 1

/-- `LogSeverity::kError = 2` (log_severity.h:35). -/
def LogSeverity.kError : Int := 2

/-- `LogSeverity::kFatal = 3` (log_severity.h:36). -/
def LogSeverity.kFatal : Int := 3

/-- `LogSeverityName` (log_severity.h:54-62): the all-caps string
representation of the four normal levels, and "UNKNOWN" otherwise. -/
def LogSeverityName (s : Int) : String :=
  if s = LogSeverity.kInfo then "INFO"
  else if s = LogSeverity.kWarning then "WARNING"
  else if s = LogSeverity.kError then "ERROR"
  else if s = LogSeverity.kFatal then "FATAL"
  else "UNKNOWN"

/-- `NormalizeLogSeverity` (log_severity.h:66-73): values less than `kInfo`
normalize to `kInfo`; values greater than `kFatal` normalize to `kError`
(NOT `kFatal`).  The `int` overload is the same function, since the enum's
underlying type is `int` and the cast is the identity on values. -/
def NormalizeLogSeverity (s : Int) : Int :=
  if s < LogSeverity.kInfo then LogSeverity.kInfo
  else if LogSeverity.kFatal < s then LogSeverity.kError
  else s

end xbsl

open xbsl

/-- C2: for every integer input `s`, `NormalizeLogSeverity s` is one of the
four canonical values; every value below `kInfo` maps to `kInfo`; every value
strictly above `kFatal` maps to `kError` (never `kFatal`); in particular
`NormalizeLogSeverity (-1) = kInfo` and `NormalizeLogSeverity 99 = kError`. -/
theorem normalize_log_severity_clamps :
    ∀ s : Int,
      (NormalizeLogSeverity s = LogSeverity.kInfo ∨
       NormalizeLogSeverity s = LogSeverity.kWarning ∨
       NormalizeLogSeverity s = LogSeverity.kError ∨
       NormalizeLogSeverity s = LogSeverity.kFatal) ∧
      (s < LogSeverity.kInfo → NormalizeLogSeverity s = LogSeverity.kInfo) ∧
      (LogSeverity.kFatal < s → NormalizeLogSeverity s = LogSeverity.kError) ∧
      NormalizeLogSeverity (-1) = LogSeverity.kInfo ∧
      NormalizeLogSeverity 99 = LogSeverity.kError := by
  intro s
  refine ⟨?_, ?_, ?_, by decide, by decide⟩
  · simp only [NormalizeLogSeverity, LogSeverity.kInfo, LogSeverity.kWarning,
      LogSeverity.kError, LogSeverity.kFatal]
    split_ifs with h1 h2
    · exact Or.inl rfl
    · exact Or.inr (Or.inr (Or.inl rfl))
    · have h0 : (0:Int) ≤ s := le_of_not_lt h1
      have h3 : s ≤ (3:Int) := le_of_not_lt h2
      interval_cases s <;> simp
  · intro h
    simp only [NormalizeLogSeverity, LogSeverity.kInfo, LogSeverity.kFatal,
      LogSeverity.kError] at *
    split_ifs <;> omega
  · intro h
    simp only [NormalizeLogSeverity, LogSeverity.kInfo, LogSeverity.kFatal,
      LogSeverity.kError] at *
    split_ifs <;> omega

/-- Witness for C2 at the concrete inputs `-1` and `99`. -/
theorem normalize_log_severity_clamps_witness :
    ((-1 : Int) < LogSeverity.kInfo ∧
      NormalizeLogSeverity (-1) = LogSeverity.kInfo) ∧
    (LogSeverity.kFatal < (99 : Int) ∧
      NormalizeLogSeverity 99 = LogSeverity.kError) :=
  ⟨⟨by decide, (normalize_log_severity_clamps (-1)).2.1 (by decide)⟩,
   ⟨by decide, (normalize_log_severity_clamps 99).2.2.1 (by decide)⟩⟩

/-- C8: `LogSeverityName` returns exactly one of "INFO", "WARNING", "ERROR",
"FATAL" for the canonical values and "UNKNOWN" for any other raw value such
as 7; the operation is total. -/
theorem log_severity_name_cases :
    ∀ s : Int,
      LogSeverityName LogSeverity.kInfo = "INFO" ∧
      LogSeverityName LogSeverity.kWarning = "WARNING" ∧
      LogSeverityName LogSeverity.kError = "ERROR" ∧
      LogSeverityName LogSeverity.kFatal = "FATAL" ∧
      LogSeverityName 7 = "UNKNOWN" ∧
      (s ≠ LogSeverity.kInfo → s ≠ LogSeverity.kWarning →
        s ≠ LogSeverity.kError → s ≠ LogSeverity.kFatal →
        LogSeverityName s = "UNKNOWN") ∧
      (LogSeverityName s = "INFO" ∨ LogSeverityName s = "WARNING" ∨
       LogSeverityName s = "ERROR" ∨ LogSeverityName s = "FATAL" ∨
       LogSeverityName s = "UNKNOWN") := by
  intro s
  refine ⟨by decide, by decide, by decide, by decide, by decide, ?_, ?_⟩
  · intro h0 h1 h2 h3
    simp only [LogSeverityName, if_neg h0, if_neg h1, if_neg h2, if_neg h3]
  · simp only [LogSeverityName]
    split_ifs <;> simp

/-- Witness for C8 at the out-of-range raw value 7. -/
theorem log_severity_name_cases_witness :
    (7 : Int) ≠ LogSeverity.kInfo ∧ LogSeverityName 7 = "UNKNOWN" :=
  ⟨by decide,
   (log_severity_name_cases 7).2.2.2.2.2.1 (by decide) (by decide)
     (by decide) (by decide)⟩

/-- C10: `NormalizeLogSeverity` is idempotent and fixes each of the four
canonical severity values. -/
theorem normalize_log_severity_idempotent :
    (∀ s : Int,
      NormalizeLogSeverity (NormalizeLogSeverity s) = NormalizeLogSeverity s) ∧
    NormalizeLogSeverity LogSeverity.kInfo = LogSeverity.kInfo ∧
    NormalizeLogSeverity LogSeverity.kWarning = LogSeverity.kWarning ∧
    NormalizeLogSeverity LogSeverity.kError = LogSeverity.kError ∧
    NormalizeLogSeverity LogSeverity.kFatal = LogSeverity.kFatal := by
  refine ⟨?_, by decide, by decide, by decide, by decide⟩
  intro s
  simp only [NormalizeLogSeverity, LogSeverity.kInfo, LogSeverity.kWarning,
    LogSeverity.kError, LogSeverity.kFatal]
  split_ifs <;> omega

namespace xbsl
namespace raw_logging_internal

/-- The two path separator characters recognized by `Basename`
(raw_logging.h:123). -/
def isPathSep (c : Char) : Bool := c = '/' || c = '\\'

/-- `fname[offset - 1] == '/' || fname[offset - 1] == '\\'` at index `i`
(raw_logging.h:123); out-of-range access never happens under the caller's
precondition and is treated as "no separator". -/
def sepAt (fname : List Char) (i : Nat) : Bool :=
  match fname[i]? with
  | some c => isPathSep c
  | none => false

/-- `Basename` (raw_logging.h:122-126): returns the part of `fname` after the
last "/" or "\" separator, searching backwards from index `offset`; the C++
result pointer `fname + offset` is embedded as the suffix `fname.drop offset`
at the base case. -/
def Basename (fname : List Char) : Nat → List Char
  | 0 => fname
  | o + 1 => if sepAt fname o then fname.drop (o + 1) else Basename fname o

/-- Fuel-indexed variant of `Basename`, used to state its termination: `none`
means the fuel ran out before the recursion reached a base case. -/
def BasenameFuel (fname : List Char) : Nat → Nat → Option (List Char)
  | 0, _ => none
  | _ + 1, 0 => some fname
  | f + 1, o + 1 =>
    if sepAt fname o then some (fname.drop (o + 1)) else BasenameFuel fname f o

/-- Specification-side description of `Basename`'s result on a whole string:
the longest suffix containing no separator, i.e. everything after the last
separator (the whole string when there is none). -/
def suffixAfterLastSep (fname : List Char) : List Char :=
  (fname.reverse.takeWhile (fun c => !isPathSep c)).reverse

/-- Number of trailing non-separator characters of `l`. -/
def noSepLen (l : List Char) : Nat :=
  (l.reverse.takeWhile (fun c => !isPathSep c)).length

end raw_logging_internal
end xbsl

open xbsl.raw_logging_internal

lemma takeWhile_of_all (p : Char → Bool) :
    ∀ l : List Char, (∀ c ∈ l, p c = true) → l.takeWhile p = l := by
  intro l h
  induction l with
  | nil => rfl
  | cons a t ih =>
    rw [List.takeWhile_cons, if_pos (h a (List.mem_cons_self a t))]
    rw [ih fun c hc => h c (List.mem_cons_of_mem a hc)]

lemma basename_eq_drop (fname : List Char) :
    ∀ o : Nat, o ≤ fname.length →
      Basename fname o = fname.drop (o - noSepLen (fname.take o)) := by
  intro o
  induction o with
  | zero => intro _; simp [Basename, noSepLen]
  | succ o ih =>
    intro h
    have ho : o < fname.length := Nat.lt_of_succ_le h
    have hget : fname[o]? = some fname[o] := List.getElem?_eq_getElem ho
    have htake : fname.take (o + 1) = fname.take o ++ [fname[o]] := by
      rw [List.take_succ, hget]; rfl
    have hrev : (fname.take (o + 1)).reverse
        = fname[o] :: (fname.take o).reverse := by
      rw [htake, List.reverse_append]; rfl
    by_cases hsep : isPathSep fname[o]
    · have hcut : noSepLen (fname.take (o + 1)) = 0 := by
        simp [noSepLen, hrev, List.takeWhile_cons, hsep]
      have hbase : Basename fname (o + 1) = fname.drop (o + 1) := by
        simp [Basename, sepAt, hget, hsep]
      rw [hbase, hcut]
      rfl
    · have hcut : noSepLen (fname.take (o + 1))
          = noSepLen (fname.take o) + 1 := by
        simp [noSepLen, hrev, List.takeWhile_cons, hsep]
      have hbase : Basename fname (o + 1) = Basename fname o := by
        simp [Basename, sepAt, hget, hsep]
      rw [hbase, hcut, ih (Nat.le_of_lt ho), Nat.succ_sub_succ]

lemma rev_drop_takeWhile (p : Char → Bool) (m : List Char) :
    m.reverse.drop (m.length - (m.takeWhile p).length)
      = (m.takeWhile p).reverse := by
  have hTR : m.takeWhile p ++ m.dropWhile p = m :=
    List.takeWhile_append_dropWhile p m
  have hrev : m.reverse = (m.dropWhile p).reverse ++ (m.takeWhile p).reverse := by
    conv_lhs => rw [← hTR]
    exact List.reverse_append _ _
  have hlenm : (m.takeWhile p).length + (m.dropWhile p).length = m.length := by
    have hc := congrArg List.length hTR
    rw [List.length_append] at hc
    exact hc
  have hlen : m.length - (m.takeWhile p).length
      = ((m.dropWhile p).reverse).length := by
    rw [List.length_reverse]
    omega
  rw [hlen, hrev]
  exact List.drop_left _ _

lemma basename_full (fname : List Char) :
    Basename fname fname.length = suffixAfterLastSep fname := by
  have h := basename_eq_drop fname fname.length (Nat.le_refl _)
  rw [List.take_length] at h
  rw [h]
  simp only [noSepLen, suffixAfterLastSep]
  have hr := rev_drop_takeWhile (fun c => !isPathSep c) fname.reverse
  rw [List.reverse_reverse, List.length_reverse] at hr
  exact hr

/-- C7: `Basename fname n` (with `n` the length of `fname`) returns the suffix
of `fname` after the last "/" or "\" separator, and the whole string when no
separator is present; in particular on "a/b/c.cc", "c.cc", "a\b\c.cc" and
the empty string it returns "c.cc", "c.cc", "c.cc" and "" respectively. -/
theorem basename_after_last_sep :
    (∀ fname : List Char,
      Basename fname fname.length = suffixAfterLastSep fname) ∧
    (∀ fname : List Char, (∀ c ∈ fname, isPathSep c = false) →
      Basename fname fname.length = fname) ∧
    Basename "a/b/c.cc".toList 8 = "c.cc".toList ∧
    Basename "c.cc".toList 4 = "c.cc".toList ∧
    Basename "a\\b\\c.cc".toList 8 = "c.cc".toList ∧
    Basename "".toList 0 = "".toList := by
  refine ⟨basename_full, ?_, by decide, by decide, by decide, by decide⟩
  intro fname hall
  rw [basename_full fname]
  have hw : fname.reverse.takeWhile (fun c => !isPathSep c) = fname.reverse := by
    refine takeWhile_of_all _ fname.reverse fun c hc => ?_
    rw [hall c (List.mem_reverse.mp hc)]
    rfl
  rw [suffixAfterLastSep, hw, List.reverse_reverse]

/-- Witness for C7: the no-separator case at the concrete input "c.cc". -/
theorem basename_after_last_sep_witness :
    Basename "c.cc".toList "c.cc".toList.length = "c.cc".toList :=
  basename_after_last_sep.2.1 "c.cc".toList (by decide)

/-- C9: the recursion of `Basename` terminates for every string and every
offset at most the string's length: each recursive call strictly decreases
the offset, so fuel `offset + 1` already suffices for the fuel-indexed
variant to reach a base case, and it computes `Basename`. -/
theorem basename_fuel_converges :
    ∀ (fname : List Char) (offset : Nat), offset ≤ fname.length →
      BasenameFuel fname (offset + 1) offset = some (Basename fname offset) := by
  intro fname offset
  induction offset with
  | zero => intro _; rfl
  | succ o ih =>
    intro h
    by_cases hsep : sepAt fname o
    · simp [BasenameFuel, Basename, hsep]
    · simp only [BasenameFuel, Basename, if_neg hsep]
      exact ih (by omega)

/-- Witness for C9 at the concrete input "a/b" with offset 3. -/
theorem basename_fuel_converges_witness :
    3 ≤ "a/b".toList.length ∧
    BasenameFuel "a/b".toList 4 3 = some (Basename "a/b".toList 3) :=
  ⟨by decide, basename_fuel_converges "a/b".toList 3 (by decide)⟩

namespace xbsl
namespace raw_logging_internal

/-- Modelled from the spec: `raw_logging.cc` is not in src/, so the buffer
interaction of `LogPrefixHook` (declared raw_logging.h:154-155) is modelled
per spec section 4.3: the hook receives the severity, the file basename, the
line and the buffer capacity, and returns the emit/suppress flag together
with the custom prefix text it wrote, which shrinks the remaining writable
window. -/
def LogPrefixHook : Type := Int → String → Int → Nat → Bool × String

/-- Modelled from the spec: `AbortHook` (declared raw_logging.h:166-167),
invoked immediately before a Fatal-triggered termination; it returns no
value, which in this total model means it always returns normally. -/
def AbortHook : Type := String → Int → String → Nat → Unit

/-- Modelled from the spec: the process-wide Hook Registry (spec section 3),
two independent slots each holding at most one callback. -/
structure HookRegistry where
  pfxHook : Option LogPrefixHook
  abortHook : Option AbortHook

/-- Observable outcome of one `RawLog` call: the normalized severity used
for its decisions, the rendered buffer contents, whether the buffer was
passed to the stderr writer, whether the abort hook was invoked, and whether
the process is terminated after the call. -/
structure RawLogResult where
  severity : Int
  message : String
  emitted : Bool
  abortHookRan : Bool
  terminated : Bool

/-- Modelled from the spec: `RawLog` (declared raw_logging.h:107-110) is
implemented in `raw_logging.cc`, which is not in src/.  Steps follow spec
section 4.4: (1) normalize the severity, (2) resolve the basename of the
source file, (3) render the message into a fixed-capacity buffer with silent
truncation, (4) invoke the prefix hook if registered, (5/6) write to stderr
unless suppressed, where Fatal output is attempted even when suppressed,
(7) if Fatal: invoke the abort hook if registered, then terminate. -/
def RawLog (reg : HookRegistry) (cap : Nat) (severity : Int) (file : String)
    (line : Int) (format : String) : RawLogResult :=
  let sev := NormalizeLogSeverity severity
  let base := String.mk (Basename file.toList file.toList.length)
  let hookOut :=
    match reg.pfxHook with
    | some h => h sev base line cap
    | none => (true, "")
  let pfx := hookOut.2.take cap
  let body := format.take (cap - pfx.length)
  let isFatal := decide (sev = LogSeverity.kFatal)
  { severity := sev
    message := pfx ++ body
    emitted := hookOut.1 || isFatal
    abortHookRan := isFatal && reg.abortHook.isSome
    terminated := isFatal }

/-- Modelled from the spec: `RegisterLogPrefixHook` / `RegisterAbortHook`
(declared raw_logging.h:199-200) are implemented in `raw_logging.cc`, which
is not in src/.  Per the registration contract (spec section 4.3), an unset
slot is set; re-registering the identical callback value is a no-op;
registering a distinct value for a set slot is escalated through the Fatal
raw-log path.  Callback values are compared by identity (function pointers),
embedded as an arbitrary type with decidable equality. -/
def RegisterHookSlot (α : Type) [DecidableEq α] (reg : HookRegistry)
    (cap : Nat) (slot : Option α) (fn : α) : Option α × Option RawLogResult :=
  match slot with
  | none => (some fn, none)
  | some g =>
    if g = fn then (some g, none)
    else
      (some g, some (RawLog reg cap LogSeverity.kFatal "raw_logging.cc" 0
        "Duplicate hook was registered."))

end raw_logging_internal

/-- Modelled from the spec: `log_severity.cc`, which defines the extern
constant `kLogDebugFatal` (declared log_severity.h:50), is not in src/.  Per
the header comment and spec section 3, it equals `kFatal` when `NDEBUG` is
not defined (a debug build) and `kError` otherwise; the build mode is a
single process-wide Boolean resolved once, so the constant is a pure
function of it. -/
def kLogDebugFatal (debugBuild : Bool) : Int :=
  if debugBuild then LogSeverity.kFatal else LogSeverity.kError

end xbsl

open xbsl.raw_logging_internal

lemma normalize_kFatal :
    NormalizeLogSeverity LogSeverity.kFatal = LogSeverity.kFatal := by decide

lemma raw_log_fatal_aux (reg : HookRegistry) (cap : Nat) (sev : Int)
    (file : String) (line : Int) (fmt : String)
    (h : NormalizeLogSeverity sev = LogSeverity.kFatal) :
    (RawLog reg cap sev file line fmt).terminated = true ∧
    (RawLog reg cap sev file line fmt).severity = LogSeverity.kFatal ∧
    (RawLog reg cap sev file line fmt).emitted = true := by
  simp [RawLog, h]

/-- C1: every `RawLog` call dispatched at Fatal severity terminates the
process afterwards, whatever the Hook Registry holds: in particular even
when a registered prefix hook suppresses the call's output and even when an
abort hook is registered (it returns normally in this total model). -/
theorem raw_log_fatal_terminates :
    ∀ (reg : HookRegistry) (cap : Nat) (sev : Int) (file : String)
      (line : Int) (fmt : String),
      NormalizeLogSeverity sev = LogSeverity.kFatal →
      (RawLog reg cap sev file line fmt).terminated = true := by
  intro reg cap sev file line fmt h
  exact (raw_log_fatal_aux reg cap sev file line fmt h).1

/-- Witness for C1: a registry whose prefix hook suppresses and whose abort
hook is registered, logging at `kFatal`. -/
theorem raw_log_fatal_terminates_witness :
    NormalizeLogSeverity LogSeverity.kFatal = LogSeverity.kFatal ∧
    (RawLog ⟨some (fun _ _ _ _ => (false, "")), some (fun _ _ _ _ => ())⟩
      256 LogSeverity.kFatal "file.cc" 42 "boom").terminated = true :=
  ⟨by decide,
   raw_log_fatal_terminates
     ⟨some (fun _ _ _ _ => (false, "")), some (fun _ _ _ _ => ())⟩
     256 LogSeverity.kFatal "file.cc" 42 "boom" (by decide)⟩

/-- C3: for a hook slot, registering into an unset slot sets it; registering
the identical callback value a second time is a no-op; registering a
distinct value for a set slot produces a Fatal raw-log call (the process is
terminated) instead of a recoverable error; the slot's value is set at most
once (a set slot never changes). -/
theorem register_hook_one_shot :
    ∀ (α : Type) [DecidableEq α] (reg : HookRegistry) (cap : Nat)
      (slot : Option α) (fn g : α),
      RegisterHookSlot α reg cap none fn = (some fn, none) ∧
      RegisterHookSlot α reg cap (some fn) fn = (some fn, none) ∧
      (g ≠ fn →
        (RegisterHookSlot α reg cap (some g) fn).1 = some g ∧
        (RegisterHookSlot α reg cap (some g) fn).2.map RawLogResult.terminated
          = some true ∧
        (RegisterHookSlot α reg cap (some g) fn).2.map RawLogResult.severity
          = some LogSeverity.kFatal) ∧
      (RegisterHookSlot α reg cap slot fn).1 = some (slot.getD fn) := by
  intro α _ reg cap slot fn g
  refine ⟨rfl, by simp [RegisterHookSlot], ?_, ?_⟩
  · intro hne
    have haux := raw_log_fatal_aux reg cap LogSeverity.kFatal "raw_logging.cc"
      0 "Duplicate hook was registered." normalize_kFatal
    simp [RegisterHookSlot, hne, haux.1, haux.2.1]
  · cases slot with
    | none => rfl
    | some g' =>
      simp only [RegisterHookSlot, Option.getD_some]
      split <;> rfl

/-- Witness for C3: slot holding callback id 2, registering the distinct
id 1 yields a terminating Fatal log. -/
theorem register_hook_one_shot_witness :
    (2 : Nat) ≠ 1 ∧
    ((RegisterHookSlot Nat ⟨none, none⟩ 256 (some 2) 1).1 = some 2 ∧
      (RegisterHookSlot Nat ⟨none, none⟩ 256 (some 2) 1).2.map
        RawLogResult.terminated = some true ∧
      (RegisterHookSlot Nat ⟨none, none⟩ 256 (some 2) 1).2.map
        RawLogResult.severity = some LogSeverity.kFatal) :=
  ⟨by decide,
   (register_hook_one_shot Nat ⟨none, none⟩ 256 (some 2) 1 2).2.2.1
     (by decide)⟩

/-- C4: the DFATAL resolution `kLogDebugFatal` equals `kFatal` in a debug
build (NDEBUG not defined) and `kError` otherwise, and for every build mode
it is one of those two values. -/
theorem log_debug_fatal_resolution :
    kLogDebugFatal true = LogSeverity.kFatal ∧
    kLogDebugFatal false = LogSeverity.kError ∧
    (∀ b : Bool, kLogDebugFatal b = LogSeverity.kFatal ∨
      kLogDebugFatal b = LogSeverity.kError) := by
  refine ⟨rfl, rfl, ?_⟩
  intro b
  cases b
  · exact Or.inr rfl
  · exact Or.inl rfl

namespace xbsl
namespace raw_logging_internal

/-- `XBSL_RAW_CHECK` (raw_logging.h:71-76): when the condition is false it
invokes `XBSL_RAW_LOG(FATAL, "Check %s failed: %s", #condition, message)`;
the printf rendering of that format with its two string arguments is the
spliced string below.  When the condition is true nothing is invoked; the
macro accepts only the single message, no further diagnostic arguments. -/
def XBSL_RAW_CHECK (reg : HookRegistry) (cap : Nat) (cond : Bool)
    (condText msg : String) (file : String) (line : Int) :
    Option RawLogResult :=
  if cond then none
  else
    some (RawLog reg cap LogSeverity.kFatal file line
      ("Check " ++ condText ++ " failed: " ++ msg))

/-- `XBSL_RAW_LOG` (raw_logging.h:43-64): when `STRIP_LOG` is absent or 0,
the macro always calls `RawLog` at the given severity; when `STRIP_LOG` is
nonzero, it calls `RawLog` only when the severity constant equals `kFatal`.
The macro resolves the file basename at compile time and `RawLog` resolves
it again in this model, which is idempotent since a basename contains no
separator. -/
def XBSL_RAW_LOG (stripLog : Bool) (reg : HookRegistry) (cap : Nat)
    (sev : Int) (file : String) (line : Int) (fmt : String) :
    Option RawLogResult :=
  if stripLog then
    if sev = LogSeverity.kFatal then
      some (RawLog reg cap LogSeverity.kFatal file line fmt)
    else none
  else some (RawLog reg cap sev file line fmt)

end raw_logging_internal
end xbsl

/-- C5: `XBSL_RAW_CHECK` logs if and only if its condition is false; on a
false condition it performs the full Fatal-severity `RawLog` path (with the
"Check ... failed: ..." rendering of its single message), which terminates
the process; on a true condition nothing is logged. -/
theorem raw_check_fatal_iff :
    ∀ (reg : HookRegistry) (cap : Nat) (cond : Bool)
      (condText msg file : String) (line : Int),
      (cond = true →
        XBSL_RAW_CHECK reg cap cond condText msg file line = none) ∧
      (cond = false →
        XBSL_RAW_CHECK reg cap cond condText msg file line
          = some (RawLog reg cap LogSeverity.kFatal file line
              ("Check " ++ condText ++ " failed: " ++ msg)) ∧
        (XBSL_RAW_CHECK reg cap cond condText msg file line).map
            RawLogResult.terminated = some true ∧
        (XBSL_RAW_CHECK reg cap cond condText msg file line).map
            RawLogResult.severity = some LogSeverity.kFatal ∧
        (XBSL_RAW_CHECK reg cap cond condText msg file line).map
            RawLogResult.emitted = some true) := by
  intro reg cap cond condText msg file line
  constructor
  · intro h
    simp [XBSL_RAW_CHECK, h]
  · intro h
    have haux := raw_log_fatal_aux reg cap LogSeverity.kFatal file line
      ("Check " ++ condText ++ " failed: " ++ msg) normalize_kFatal
    simp [XBSL_RAW_CHECK, h, haux.1, haux.2.1, haux.2.2]

/-- Witness for C5: a failed check with a concrete message terminates with
Fatal severity; a passed check logs nothing. -/
theorem raw_check_fatal_iff_witness :
    (XBSL_RAW_CHECK ⟨none, none⟩ 256 false "p != nullptr" "bad ptr"
        "file.cc" 7).map RawLogResult.terminated = some true :=
  ((raw_check_fatal_iff ⟨none, none⟩ 256 false "p != nullptr" "bad ptr"
      "file.cc" 7).2 rfl).2.1

/-- C6: with the compile-time stripping switch enabled, `XBSL_RAW_LOG` at
any non-fatal severity performs no `RawLog` call, while at `kFatal` it still
performs the full `RawLog` call, which emits and terminates; without the
switch the Fatal call is equally present, so the Fatal path exists in every
build configuration. -/
theorem strip_log_preserves_fatal :
    ∀ (reg : HookRegistry) (cap : Nat) (sev : Int) (file : String)
      (line : Int) (fmt : String),
      (sev ≠ LogSeverity.kFatal →
        XBSL_RAW_LOG true reg cap sev file line fmt = none) ∧
      (sev = LogSeverity.kFatal →
        XBSL_RAW_LOG true reg cap sev file line fmt
          = some (RawLog reg cap LogSeverity.kFatal file line fmt) ∧
        (XBSL_RAW_LOG true reg cap sev file line fmt).map
            RawLogResult.terminated = some true ∧
        (XBSL_RAW_LOG true reg cap sev file line fmt).map
            RawLogResult.emitted = some true) ∧
      (XBSL_RAW_LOG false reg cap LogSeverity.kFatal file line fmt).map
          RawLogResult.terminated = some true := by
  intro reg cap sev file line fmt
  have haux := raw_log_fatal_aux reg cap LogSeverity.kFatal file line fmt
    normalize_kFatal
  refine ⟨?_, ?_, ?_⟩
  · intro h
    simp [XBSL_RAW_LOG, h]
  · intro h
    simp [XBSL_RAW_LOG, h, haux.1, haux.2.2]
  · simp [XBSL_RAW_LOG, haux.1]

/-- Witness for C6: with stripping on, a `kWarning` call logs nothing and a
`kFatal` call still terminates. -/
theorem strip_log_preserves_fatal_witness :
    XBSL_RAW_LOG true ⟨none, none⟩ 256 LogSeverity.kWarning "file.cc" 3
        "w" = none ∧
    (XBSL_RAW_LOG true ⟨none, none⟩ 256 LogSeverity.kFatal "file.cc" 3
        "f").map RawLogResult.terminated = some true :=
  ⟨(strip_log_preserves_fatal ⟨none, none⟩ 256 LogSeverity.kWarning
      "file.cc" 3 "w").1 (by decide),
   ((strip_log_preserves_fatal ⟨none, none⟩ 256 LogSeverity.kFatal
      "file.cc" 3 "f").2.1 rfl).2.1⟩
